import Mathlib

/-!
Shallow embedding of the gdevelop-mcp server's document/session management
layer, and proofs about the claims of its specification.

The embedded code comes from:
* `src/unnamed/part_000` — `GDCoreManager`, `ProjectManager`, `ProjectSession`
* `src/gdevelop-mcp-server/src/index.ts` — project/scene/object/variable tools
* `src/gdevelop-mcp-server/src/tools/instances.ts` — instance tools
* `src/gdevelop-mcp-server/src/tools/behaviors.ts` — event/instruction tools

Primitive operations of the external GDevelop core library (libGD, reached
through `gdcore-tools`) are not part of the repository; they are modelled from
their declared interface (`src/gdevelop-mcp-server/src/types/gdcore.ts`) and
the specification's description of the data model, and each such definition
says so in its doc comment. File-system writes and the external serializer are
abstracted by explicit success oracles (`writeOk`, `copyOk`, `saveOk`): the
TypeScript code only observes whether these awaited calls throw.
-/

/-! ## Data model -/

/-- One placed object instance in a scene (`GDInitialInstance`).
Modelled from the spec: attributes of an Instance are its object name,
position, angle, z-order and layer; numbers are kept abstract as `Int`. -/
structure GDInstance where
  objectName : String
  x : Int := 0
  y : Int := 0
  z : Option Int := none
  layer : String := ""
  angle : Int := 0
  zOrder : Option Int := none
  deriving Repr, DecidableEq

/-- One object in an object container (`GDObject`): a name and a type id. -/
structure GDObject where
  name : String
  kind : String
  deriving Repr, DecidableEq

/-- One scene (`GDLayout`): a name, its object container and its instance
container.  Layers, variables and events are carried by separate embeddings
where a claim needs them. -/
structure GDLayout where
  name : String
  objects : List GDObject := []
  instances : List GDInstance := []
  deriving Repr, DecidableEq

/-- The project document (`GDProject`): metadata, the ordered scene list, the
first-scene identifier and the global object container. -/
structure GDProject where
  name : String := ""
  version : String := ""
  description : String := ""
  author : String := ""
  packageName : String := ""
  windowWidth : Int := 1280
  windowHeight : Int := 720
  maxFPS : Int := 60
  minFPS : Int := 0
  firstLayout : String := ""
  layouts : List GDLayout := []
  globalObjects : List GDObject := []
  deriving Repr, DecidableEq

/-- `project.hasLayoutNamed(name)`.  Modelled from the spec: true when some
scene of the document has this name. -/
def GDProject.hasLayoutNamed (p : GDProject) (name : String) : Bool :=
  p.layouts.any (fun l => l.name = name)

/-- `project.insertNewLayout(name, pos)`.  Modelled from the spec: inserts an
empty scene at the given position (clamped to the end of the list). -/
def GDProject.insertNewLayout (p : GDProject) (name : String) (pos : Nat) : GDProject :=
  { p with layouts := p.layouts.insertIdx (min pos p.layouts.length) { name := name } }

/-- `project.removeLayout(name)`.  Modelled from the spec: removes the first
scene with this name. -/
def GDProject.removeLayout (p : GDProject) (name : String) : GDProject :=
  { p with layouts := p.layouts.eraseP (fun l => l.name = name) }

/-- `project.getLayout(currentName).setName(newName)`: renames the first scene
with the given name.  Modelled from the spec: `getLayout` resolves by name and
`setName` overwrites the name of that scene only. -/
def renameFirstLayout (ls : List GDLayout) (curr newName : String) : List GDLayout :=
  match ls with
  | [] => []
  | l :: rest =>
      if l.name = curr then { l with name := newName } :: rest
      else l :: renameFirstLayout rest curr newName

/-! ## Sessions (`ProjectSession`, part_000 lines 381–772) -/

/-- Error kinds surfaced by the session layer (thrown `Error`s in the source,
classified following §7 of the spec). -/
inductive SessionError
  | notFound
  | duplicateName
  deriving Repr, DecidableEq

/-- The mutable state of one `ProjectSession`: the wrapped document, its file
path, the dirty flag and the timestamps (time is an abstract `Nat` counter). -/
structure SessionState where
  projectPath : String
  project : GDProject
  dirty : Bool := false
  createdAt : Nat := 0
  lastModifiedAt : Nat := 0
  deriving Repr, DecidableEq

/-- `ProjectSession.markDirty` (part_000 lines 419–422): sets the dirty flag
and refreshes the last-modified timestamp with the current time `now`. -/
def SessionState.markDirty (s : SessionState) (now : Nat) : SessionState :=
  { s with dirty := true, lastModifiedAt := now }

/-- The file system, as a mapping from path to written content. -/
abbrev FileSys := List (String × String)

/-- Write (or overwrite) one file. -/
def fsWrite (fs : FileSys) (path content : String) : FileSys :=
  (path, content) :: fs.filter (fun e => e.1 ≠ path)

/-- Read one file. -/
def fsRead (fs : FileSys) (path : String) : Option String :=
  (fs.find? (fun e => e.1 = path)).map Prod.snd

/-- The external serializer (`gd.Serializer`), reached through
`gdcoreManager.saveProject`.  Modelled from the spec: an opaque canonical
textual representation of the document. -/
def serializeProject (p : GDProject) : String :=
  reprStr p

/-- `ProjectSession.save(savePath?)` (part_000 lines 479–493).
`writeOk` abstracts whether the awaited `gdcoreManager.saveProject` write
succeeds; when it throws, the statements after the `await` never run, so the
dirty flag and the session path keep their previous values.  The JavaScript
expression `savePath || this.projectPath` and the guard `if (savePath)` treat
the empty string as absent (it is falsy). -/
def sessionSave (writeOk : Bool) (savePath : Option String) (s : SessionState)
    (fs : FileSys) : Except Unit (String × SessionState × FileSys) :=
  let targetPath :=
    match savePath with
    | some p => if p = "" then s.projectPath else p
    | none => s.projectPath
  if writeOk then
    .ok (targetPath,
      { s with dirty := false, projectPath := targetPath },
      fsWrite fs targetPath (serializeProject s.project))
  else
    .error ()

/-- `ProjectSession.renameLayout(currentName, newName)` (part_000 lines
581–599): not-found check on the current name, duplicate check on the new
name, rename, first-layout fix-up, then `markDirty`. -/
def sessionRenameLayout (s : SessionState) (curr newName : String) (now : Nat) :
    Except SessionError SessionState :=
  if ¬ s.project.hasLayoutNamed curr then .error .notFound
  else if s.project.hasLayoutNamed newName then .error .duplicateName
  else
    let p := { s.project with layouts := renameFirstLayout s.project.layouts curr newName }
    let p :=
      if p.firstLayout = curr then { p with firstLayout := newName } else p
    .ok (SessionState.markDirty { s with project := p } now)

/-- `ProjectSession.createLayout(name, position?)` (part_000 lines 551–562). -/
def sessionCreateLayout (s : SessionState) (name : String) (position : Option Nat)
    (now : Nat) : Except SessionError SessionState :=
  if s.project.hasLayoutNamed name then .error .duplicateName
  else
    let pos := position.getD s.project.layouts.length
    .ok (SessionState.markDirty { s with project := s.project.insertNewLayout name pos } now)

/-- `ProjectSession.deleteLayout(name)` (part_000 lines 567–576). -/
def sessionDeleteLayout (s : SessionState) (name : String) (now : Nat) :
    Except SessionError SessionState :=
  if ¬ s.project.hasLayoutNamed name then .error .notFound
  else .ok (SessionState.markDirty { s with project := s.project.removeLayout name } now)

/-! ## Session registry (`ProjectManager`, part_000 lines 163–340) -/

/-- One registered session together with the success oracle of its save
(whether the awaited write inside `session.save()` would succeed). -/
structure ManagedSession where
  state : SessionState
  saveOk : Bool
  deriving Repr, DecidableEq

/-- The `ProjectManager`'s state: the session map (insertion-ordered, as a
JavaScript `Map` is) and the file system the saves write to. -/
structure ManagerState where
  sessions : List (String × ManagedSession)
  fs : FileSys := []
  deriving Repr, DecidableEq

/-- `ProjectManager.closeSession(sessionId, save)` (part_000 lines 264–282):
returns `false` when the id is unknown; otherwise saves first when asked and
dirty — an exception from that save propagates before `dispose` and the map
deletion run — then disposes the session and removes it from the map. -/
def closeSession (m : ManagerState) (id : String) (save : Bool) :
    Except Unit (ManagerState × Bool) :=
  match m.sessions.find? (fun e => e.1 = id) with
  | none => .ok (m, false)
  | some (_, ms) =>
      if save ∧ ms.state.dirty then
        match sessionSave ms.saveOk none ms.state m.fs with
        | .error _ => .error ()
        | .ok (_, _, fs') =>
            .ok ({ sessions := m.sessions.eraseP (fun e => e.1 = id), fs := fs' }, true)
      else
        .ok ({ m with sessions := m.sessions.eraseP (fun e => e.1 = id) }, true)

/-- The loop body of `ProjectManager.closeAllSessions` over the key list.  The
source has no `try`/`catch` around `closeSession`, so the first exception
aborts the iteration; the returned flag records whether the loop completed. -/
def closeAllGo (m : ManagerState) (save : Bool) : List String → ManagerState × Bool
  | [] => (m, true)
  | id :: rest =>
      match closeSession m id save with
      | .error _ => (m, false)
      | .ok (m', _) => closeAllGo m' save rest

/-- `ProjectManager.closeAllSessions(save)` (part_000 lines 315–323): iterates
over the registered session ids in map order, calling `closeSession` on each.
Deleting the entry being visited is safe for a JavaScript `Map` iterator, so
the iteration is equivalent to walking the initial key list. -/
def closeAllSessions (m : ManagerState) (save : Bool) : ManagerState × Bool :=
  closeAllGo m save (m.sessions.map Prod.fst)

/-! ## Project settings tool and the scene mutation surface
(`gdevelop_project_settings`, index.ts lines 187–270, and the scene tools) -/

/-- The optional settings accepted by `gdevelop_project_settings`. -/
structure ProjectSettings where
  name : Option String := none
  version : Option String := none
  description : Option String := none
  author : Option String := none
  packageName : Option String := none
  windowWidth : Option Int := none
  windowHeight : Option Int := none
  maxFPS : Option Int := none
  minFPS : Option Int := none
  firstLayout : Option String := none
  deriving Repr, DecidableEq

/-- Net effect of the nine metadata setters of `gdevelop_project_settings`
(index.ts lines 210–245): each supplied field overwrites the project field;
the returned count is the number of entries the handler appends to its
`updated` list for them.  The setters touch pairwise distinct metadata fields,
so applying them as one record update is the sequential behaviour. -/
def applyMetaSettings (p : GDProject) (st : ProjectSettings) : GDProject × Nat :=
  ({ p with
      name := st.name.getD p.name,
      version := st.version.getD p.version,
      description := st.description.getD p.description,
      author := st.author.getD p.author,
      packageName := st.packageName.getD p.packageName,
      windowWidth := st.windowWidth.getD p.windowWidth,
      windowHeight := st.windowHeight.getD p.windowHeight,
      maxFPS := st.maxFPS.getD p.maxFPS,
      minFPS := st.minFPS.getD p.minFPS },
    (if st.name.isSome then 1 else 0) + (if st.version.isSome then 1 else 0) +
    (if st.description.isSome then 1 else 0) + (if st.author.isSome then 1 else 0) +
    (if st.packageName.isSome then 1 else 0) + (if st.windowWidth.isSome then 1 else 0) +
    (if st.windowHeight.isSome then 1 else 0) + (if st.maxFPS.isSome then 1 else 0) +
    (if st.minFPS.isSome then 1 else 0))

/-- `gdevelop_project_settings` (index.ts lines 205–268).  The `firstLayout`
setting is applied last and is the only checked one: when the named layout is
missing the handler throws after the earlier setters have already mutated the
project (no rollback) and before `markDirty`; otherwise the session is marked
dirty exactly when at least one setting was applied. -/
def applySettings (s : SessionState) (st : ProjectSettings) (now : Nat) :
    SessionState × Option SessionError :=
  let pc := applyMetaSettings s.project st
  match st.firstLayout with
  | some v =>
      if ¬ pc.1.hasLayoutNamed v then ({ s with project := pc.1 }, some .notFound)
      else
        (SessionState.markDirty { s with project := { pc.1 with firstLayout := v } } now,
          none)
  | none =>
      if 0 < pc.2 then (SessionState.markDirty { s with project := pc.1 } now, none)
      else ({ s with project := pc.1 }, none)

/-- The scene-level mutation operations exposed by the server that claim C2
ranges over: scene create, delete, rename and the settings update. -/
inductive SceneOp
  | create (name : String) (position : Option Nat)
  | delete (name : String)
  | rename (curr newName : String)
  | updateSettings (st : ProjectSettings)
  deriving Repr, DecidableEq

/-- Dispatch of one scene-surface operation against a session.  The session
operations raise their error before any mutation, so on error the state is
returned unchanged; the settings tool returns its partially updated state. -/
def applySceneOp (op : SceneOp) (s : SessionState) (now : Nat) :
    SessionState × Option SessionError :=
  match op with
  | .create name pos =>
      match sessionCreateLayout s name pos now with
      | .ok s' => (s', none)
      | .error e => (s, some e)
  | .delete name =>
      match sessionDeleteLayout s name now with
      | .ok s' => (s', none)
      | .error e => (s, some e)
  | .rename c n =>
      match sessionRenameLayout s c n now with
      | .ok s' => (s', none)
      | .error e => (s, some e)
  | .updateSettings st => applySettings s st now

/-- The spec's first-scene invariant: the first-scene identifier, when set
(nonempty), names a scene that exists in the document. -/
def firstLayoutValid (p : GDProject) : Bool :=
  if p.firstLayout = "" then true else p.hasLayoutNamed p.firstLayout

/-! ## Object rename tool (`gdevelop_object_rename`, index.ts lines 668–721) -/

/-- `initialInstances.renameInstancesOfObject(oldName, newName)`.  Modelled
from the spec: rewrites the object-name reference of every instance whose
object name is `oldName` and leaves every other instance unchanged. -/
def renameInstancesOfObject (insts : List GDInstance) (oldName newName : String) :
    List GDInstance :=
  insts.map (fun i =>
    if i.objectName = oldName then { i with objectName := newName } else i)

/-- `container.getObject(currentName).setName(newName)`: renames the first
object with the given name.  Modelled from the spec: `getObject` resolves by
name and `setName` overwrites the name of that object only. -/
def renameFirstObject (os : List GDObject) (curr newName : String) : List GDObject :=
  match os with
  | [] => []
  | o :: rest =>
      if o.name = curr then { o with name := newName } :: rest
      else o :: renameFirstObject rest curr newName

/-- Apply an in-place mutation to the first layout with the given name (the
live layout reference the session hands out). -/
def updateFirstLayout (ls : List GDLayout) (name : String) (f : GDLayout → GDLayout) :
    List GDLayout :=
  match ls with
  | [] => []
  | l :: rest =>
      if l.name = name then f l :: rest else l :: updateFirstLayout rest name f

/-- The object container `gdevelop_object_rename` addresses: the named scene's
container when `sceneName` is given, else the global container. -/
def objectContainerOf (s : SessionState) (sceneName : Option String) : List GDObject :=
  match sceneName with
  | some sn => ((s.project.layouts.find? (fun l => l.name = sn)).map GDLayout.objects).getD []
  | none => s.project.globalObjects

/-- `gdevelop_object_rename` (index.ts lines 668–721): container selection,
not-found/duplicate checks on the addressed container, `setName` on the
object, then `renameInstancesOfObject` on every layout's instance container,
then `markDirty`. -/
def objectRenameTool (s : SessionState) (curr newName : String)
    (sceneName : Option String) (now : Nat) : SessionState × Option SessionError :=
  match sceneName with
  | some sn =>
      if ¬ s.project.hasLayoutNamed sn then (s, some .notFound)
      else
        let container := objectContainerOf s (some sn)
        if ¬ container.any (fun o => o.name = curr) then (s, some .notFound)
        else if container.any (fun o => o.name = newName) then (s, some .duplicateName)
        else
          let p := { s.project with
            layouts := updateFirstLayout s.project.layouts sn
              (fun l => { l with objects := renameFirstObject l.objects curr newName }) }
          let p := { p with
            layouts := p.layouts.map
              (fun l => { l with instances := renameInstancesOfObject l.instances curr newName }) }
          (SessionState.markDirty { s with project := p } now, none)
  | none =>
      if ¬ s.project.globalObjects.any (fun o => o.name = curr) then (s, some .notFound)
      else if s.project.globalObjects.any (fun o => o.name = newName) then
        (s, some .duplicateName)
      else
        let p := { s.project with
          globalObjects := renameFirstObject s.project.globalObjects curr newName }
        let p := { p with
          layouts := p.layouts.map
            (fun l => { l with instances := renameInstancesOfObject l.instances curr newName }) }
        (SessionState.markDirty { s with project := p } now, none)

/-! ## Instance batch tool (`gdevelop_instance_batch`, instances.ts 205–283) -/

/-- One item of a batch instance-creation request. -/
structure BatchItem where
  objectName : String
  x : Int
  y : Int
  z : Option Int := none
  layer : Option String := none
  angle : Option Int := none
  zOrder : Option Int := none
  deriving Repr, DecidableEq

/-- One per-item result entry of the batch tool. -/
inductive BatchOutcome
  | created (objectName : String) (x y : Int)
  | failed (objectName : String) (error : String)
  deriving Repr, DecidableEq

/-- The existence check of instance creation (instances.ts lines 234–237):
the object must exist in the scene's container or globally. -/
def objectResolvable (p : GDProject) (l : GDLayout) (name : String) : Bool :=
  l.objects.any (fun o => o.name = name) || p.globalObjects.any (fun o => o.name = name)

/-- `insertNewInitialInstance()` followed by the item's setters (instances.ts
lines 246–253).  Modelled from the spec: a fresh default instance whose
supplied fields are overwritten. -/
def instanceOfItem (d : BatchItem) : GDInstance :=
  { objectName := d.objectName, x := d.x, y := d.y, z := d.z,
    layer := d.layer.getD "", angle := d.angle.getD 0, zOrder := d.zOrder }

/-- The per-item loop of `gdevelop_instance_batch` (instances.ts 231–267):
each item is checked independently against the addressed layout's and the
global container; a failing item appends a failure entry and `continue`s, a
succeeding item inserts exactly one new instance and appends a success
entry. -/
def runBatch (p : GDProject) (l : GDLayout) :
    List BatchItem → List GDInstance × List BatchOutcome
  | [] => ([], [])
  | d :: rest =>
      if objectResolvable p l d.objectName then
        let r := runBatch p l rest
        (instanceOfItem d :: r.1, .created d.objectName d.x d.y :: r.2)
      else
        let r := runBatch p l rest
        (r.1, .failed d.objectName "Object not found" :: r.2)

/-- `gdevelop_instance_batch` (instances.ts 224–283): resolves the session's
layout (`getLayout` throws not-found), runs the per-item loop appending the
created instances to the layout's instance container, then calls
`session.markDirty()` unconditionally. -/
def instanceBatchTool (s : SessionState) (sceneName : String) (items : List BatchItem)
    (now : Nat) : SessionState × Option SessionError × List BatchOutcome :=
  match s.project.layouts.find? (fun l => l.name = sceneName) with
  | none => (s, some .notFound, [])
  | some l =>
      let r := runBatch s.project l items
      let p := { s.project with
        layouts := updateFirstLayout s.project.layouts sceneName
          (fun l0 => { l0 with instances := l0.instances ++ r.1 }) }
      (SessionState.markDirty { s with project := p } now, none, r.2)

/-! ## Project save tool (`gdevelop_project_save`, index.ts lines 53–88) -/

/-- The backup file path (part_000 lines 499–510).  Modelled from the spec: a
sibling path derived from the project path with a timestamp token; the exact
base-name/extension splitting is not modelled. -/
def backupPathOf (projectPath : String) (timestamp : Nat) : String :=
  projectPath ++ ".backup-" ++ toString timestamp

/-- `ProjectSession.createBackup()` (part_000 lines 499–510): copies the
current on-disk file to the backup path.  `copyOk` abstracts whether the
awaited `fs.copyFile` succeeds (it throws when no on-disk file exists or on
any other I/O failure). -/
def createBackup (copyOk : Bool) (s : SessionState) (ts : Nat) (fs : FileSys) :
    Except Unit (String × FileSys) :=
  if copyOk then
    .ok (backupPathOf s.projectPath ts,
      fsWrite fs (backupPathOf s.projectPath ts) ((fsRead fs s.projectPath).getD ""))
  else .error ()

/-- The response of `gdevelop_project_save`. -/
structure SaveToolResponse where
  savedPath : String
  backupPath : Option String
  deriving Repr, DecidableEq

/-- `gdevelop_project_save` (index.ts lines 61–87): when a backup is
requested, its failure is caught and only logged (`backupPath` stays
undefined); the save then runs either way, and its own failure propagates. -/
def projectSaveTool (createBackupFlag copyOk writeOk : Bool) (savePath : Option String)
    (s : SessionState) (ts : Nat) (fs : FileSys) :
    Except Unit SaveToolResponse × SessionState × FileSys :=
  let bk :=
    if createBackupFlag then
      match createBackup copyOk s ts fs with
      | .ok (bp, fs') => (some bp, fs')
      | .error _ => (none, fs)
    else (none, fs)
  match sessionSave writeOk savePath s bk.2 with
  | .ok (saved, s', fs2) => (.ok { savedPath := saved, backupPath := bk.1 }, s', fs2)
  | .error _ => (.error (), s, bk.2)

/-- Whether the tool call succeeded. -/
def respOk : Except Unit SaveToolResponse → Bool
  | .ok _ => true
  | .error _ => false

/-- The saved path the tool reports, when it succeeded. -/
def savedPathOf : Except Unit SaveToolResponse → Option String
  | .ok r => some r.savedPath
  | .error _ => none

/-! ## Event tree (`gd.EventsList` / `gd.BaseEvent`) and the event tools
(`behaviors.ts` lines 257–861) -/

/-- One condition or action (`GDInstruction`): opaque type id, inverted flag,
ordered string parameters.  Sub-instructions are not reached by the embedded
tools. -/
structure GDInstruction where
  kind : String
  inverted : Bool := false
  parameters : List String := []
  deriving Repr, DecidableEq

mutual

/-- One event node.  Modelled from the spec: a type id, the disabled and
folded flags, the condition and action instruction lists (present exactly on
the variants whose class has `getConditions`/`getActions`), whether the
variant can have sub-events, and the nested tree. -/
inductive GDEvent where
  | mk (kind : String) (disabled folded : Bool)
      (conditions actions : Option (List GDInstruction))
      (canSub : Bool) (subEvents : GDEventList)

/-- An ordered event list (`gd.EventsList`). -/
inductive GDEventList where
  | nil
  | cons (e : GDEvent) (rest : GDEventList)

end

/-- `event.getType()`. -/
def GDEvent.kind : GDEvent → String
  | .mk k _ _ _ _ _ _ => k

/-- `event.isDisabled()`. -/
def GDEvent.disabled : GDEvent → Bool
  | .mk _ d _ _ _ _ _ => d

/-- `event.isFolded()`. -/
def GDEvent.folded : GDEvent → Bool
  | .mk _ _ f _ _ _ _ => f

/-- `event.getConditions`, when the variant has it. -/
def GDEvent.conditions : GDEvent → Option (List GDInstruction)
  | .mk _ _ _ cs _ _ _ => cs

/-- `event.getActions`, when the variant has it. -/
def GDEvent.actions : GDEvent → Option (List GDInstruction)
  | .mk _ _ _ _ acts _ _ => acts

/-- `event.canHaveSubEvents()`. -/
def GDEvent.canHaveSubEvents : GDEvent → Bool
  | .mk _ _ _ _ _ c _ => c

/-- `event.getSubEvents()`. -/
def GDEvent.subEvents : GDEvent → GDEventList
  | .mk _ _ _ _ _ _ s => s

/-- `eventsList.getEventsCount()`. -/
def GDEventList.length : GDEventList → Nat
  | .nil => 0
  | .cons _ r => r.length + 1

/-- `event.hasSubEvents()`: the nested tree is non-empty. -/
def GDEvent.hasSubEvents (e : GDEvent) : Bool :=
  0 < e.subEvents.length

/-- The event type strings of `EVENT_TYPES` (behaviors.ts lines 263–271). -/
def standardEventType : String := "BuiltinCommonInstructions::Standard"

/-- The comment event type string. -/
def commentEventType : String := "BuiltinCommonInstructions::Comment"

/-- The group event type string. -/
def groupEventType : String := "BuiltinCommonInstructions::Group"

/-- `getEventSummary` (behaviors.ts lines 276–295). -/
def getEventSummary (e : GDEvent) : String :=
  if e.kind = commentEventType then "[Comment]"
  else if e.kind = groupEventType then "[Group]"
  else
    match e.conditions, e.actions with
    | some cs, some acts =>
        toString cs.length ++ " condition(s), " ++ toString acts.length ++ " action(s)"
    | _, _ => e.kind

/-- One entry of the `events` array built by `gdevelop_event_list`: the
node's own summary (index string, type, flags, display summary, counts). -/
structure EventSummary where
  index : String
  kind : String
  disabled : Bool
  folded : Bool
  summary : String
  conditionCount : Option Nat
  actionCount : Option Nat
  subEventCount : Nat
  deriving Repr, DecidableEq

/-- The `eventInfo` record built for one node (behaviors.ts lines 343–367):
counts are present exactly when the variant has the corresponding list, and
`subEventCount` is the nested tree's size when the variant can have and has
sub-events, else 0. -/
def summarizeEvent (e : GDEvent) (pre : String) (i : Nat) : EventSummary :=
  { index := pre ++ toString i,
    kind := e.kind,
    disabled := e.disabled,
    folded := e.folded,
    summary := getEventSummary e,
    conditionCount := e.conditions.map List.length,
    actionCount := e.actions.map List.length,
    subEventCount := if e.canHaveSubEvents ∧ e.hasSubEvents then e.subEvents.length else 0 }

mutual

/-- The recursive `collectEvents` closure of `gdevelop_event_list`
(behaviors.ts lines 334–371), walking one list: each node is handled in
order with its position index `i` appended to the prefix. -/
def collectEventsList : GDEventList → Bool → Nat → Nat → String → Nat → List EventSummary
  | .nil, _, _, _, _, _ => []
  | .cons e rest, includeDisabled, depth, cur, pre, i =>
      collectEventsOne e includeDisabled depth cur pre i ++
        collectEventsList rest includeDisabled depth cur pre (i + 1)

/-- `collectEvents` on one node: a disabled node is skipped when
`includeDisabled` is false; the non-empty sub-tree of a sub-event-capable
node is traversed only while `currentDepth < depth`, and — as in the source,
where `events.push(eventInfo)` follows the recursive call — the nested
summaries precede the node's own summary in the accumulator. -/
def collectEventsOne : GDEvent → Bool → Nat → Nat → String → Nat → List EventSummary
  | .mk k d fo cs acts canSub subs, includeDisabled, depth, cur, pre, i =>
      if ¬ includeDisabled ∧ d then []
      else
        (if canSub ∧ 0 < subs.length ∧ cur < depth then
            collectEventsList subs includeDisabled depth (cur + 1)
              (pre ++ toString i ++ ".") 0
          else []) ++
          [summarizeEvent (.mk k d fo cs acts canSub subs) pre i]

end

mutual

/-- Specification-side listing, written from the spec's words for comparison
with `collectEventsList`: the summaries of exactly the nodes whose nesting
depth is within the limit, parent first, with the same skip rule and index
bookkeeping; a node at the depth limit contributes its summary but its
sub-tree is not descended into. -/
def listedUpToList : GDEventList → Bool → Nat → Nat → String → Nat → List EventSummary
  | .nil, _, _, _, _, _ => []
  | .cons e rest, includeDisabled, depth, cur, pre, i =>
      listedUpToOne e includeDisabled depth cur pre i ++
        listedUpToList rest includeDisabled depth cur pre (i + 1)

/-- Specification-side listing of one node: its own summary, then its
sub-tree's nodes while the depth limit allows. -/
def listedUpToOne : GDEvent → Bool → Nat → Nat → String → Nat → List EventSummary
  | .mk k d fo cs acts canSub subs, includeDisabled, depth, cur, pre, i =>
      if ¬ includeDisabled ∧ d then []
      else
        summarizeEvent (.mk k d fo cs acts canSub subs) pre i ::
          (if canSub ∧ 0 < subs.length ∧ cur < depth then
              listedUpToList subs includeDisabled depth (cur + 1)
                (pre ++ toString i ++ ".") 0
            else [])

end

/-- A condition literal of `gdevelop_event_create` / `gdevelop_condition_add`
(type id, ordered parameters, optional inverted flag). -/
structure CondSpec where
  kind : String
  parameters : List String
  inverted : Option Bool := none
  deriving Repr, DecidableEq

/-- An action literal (type id, ordered parameters). -/
structure ActSpec where
  kind : String
  parameters : List String
  deriving Repr, DecidableEq

/-- `new gd.Instruction()` + `setType` + `setInverted(cond.inverted || false)`
+ the parameter loop. -/
def instructionOfCond (c : CondSpec) : GDInstruction :=
  { kind := c.kind, inverted := c.inverted.getD false, parameters := c.parameters }

/-- `new gd.Instruction()` + `setType` + the parameter loop (actions carry no
inverted flag). -/
def instructionOfAct (a : ActSpec) : GDInstruction :=
  { kind := a.kind, inverted := false, parameters := a.parameters }

/-- Replace an event's conditions list (`getConditions()` then `insert`s). -/
def GDEvent.withConditions : GDEvent → List GDInstruction → GDEvent
  | .mk k d f _ acts c s, cs => .mk k d f (some cs) acts c s

/-- Replace an event's actions list (`getActions()` then `insert`s). -/
def GDEvent.withActions : GDEvent → List GDInstruction → GDEvent
  | .mk k d f cs _ c s, acts => .mk k d f cs (some acts) c s

/-- `eventsList.insertEvent`-style insertion at a position (clamped to the
end).  Modelled from the spec. -/
def GDEventList.insertAt : GDEventList → Nat → GDEvent → GDEventList
  | l, 0, e => .cons e l
  | .nil, _ + 1, e => .cons e .nil
  | .cons a rest, n + 1, e => .cons a (rest.insertAt n e)

/-- `eventsList.getEventAt(index)`.  Modelled from the spec: resolves the
index against the list; an out-of-range index finds no event. -/
def GDEventList.getAtNat : GDEventList → Nat → Option GDEvent
  | .nil, _ => none
  | .cons e _, 0 => some e
  | .cons _ r, n + 1 => r.getAtNat n

/-- `getEventAt` with the caller's (possibly negative) number. -/
def GDEventList.getEventAt (l : GDEventList) (i : Int) : Option GDEvent :=
  if i < 0 then none else l.getAtNat i.toNat

/-- Write back the mutated event at an index (the source mutates the event
in place through the reference `getEventAt` returned). -/
def GDEventList.setAtNat : GDEventList → Nat → GDEvent → GDEventList
  | .nil, _, _ => .nil
  | .cons _ r, 0, e => .cons e r
  | .cons a r, n + 1, e => .cons a (r.setAtNat n e)

/-- `eventsList.removeEventAt(index)`. -/
def GDEventList.removeAtNat : GDEventList → Nat → GDEventList
  | .nil, _ => .nil
  | .cons _ r, 0 => r
  | .cons a r, n + 1 => .cons a (r.removeAtNat n)

/-- Error kinds of the event tools: the handler's own index bounds error, the
unsupported-variant error of the instruction tools, and a failure inside the
native `getEventAt` lookup when it is reached with an out-of-range index. -/
inductive EventToolError
  | indexOutOfBounds
  | unsupportedInstr
  | nativeLookupFault
  deriving Repr, DecidableEq

/-- `gdevelop_event_create` for a `standard` event with literal condition and
action specifications (behaviors.ts lines 419–503): a fresh standard event
(empty instruction lists, empty sub-tree) is inserted at `position` — end of
the list by default — and each supplied condition and action is converted to
an instruction and appended in the order given. -/
def eventCreateStandard (list : GDEventList) (position : Option Nat)
    (conds : List CondSpec) (acts : List ActSpec) : GDEventList × Nat :=
  let pos := position.getD list.length
  let e := GDEvent.mk standardEventType false false (some []) (some []) true .nil
  let e := e.withConditions (conds.map instructionOfCond)
  let e := e.withActions (acts.map instructionOfAct)
  (list.insertAt pos e, pos)

/-- `gdevelop_condition_add` (behaviors.ts lines 604–676): the event is read
with `getEventAt(eventIndex)` with **no** bounds check, so an out-of-range
index fails at that native lookup (`nativeLookupFault`) before anything else;
in range, the variant check `!event.getConditions` may raise the unsupported
error, else the instruction is inserted at `position` (end by default). -/
def conditionAddTool (list : GDEventList) (eventIndex : Int) (cond : CondSpec)
    (position : Option Nat) : Except EventToolError (GDEventList × Nat) :=
  match list.getEventAt eventIndex with
  | none => .error .nativeLookupFault
  | some e =>
      match e.conditions with
      | none => .error .unsupportedInstr
      | some cs =>
          let pos := position.getD cs.length
          let e' := e.withConditions
            (cs.insertIdx (min pos cs.length) (instructionOfCond cond))
          .ok (list.setAtNat eventIndex.toNat e', pos)

/-- `gdevelop_action_add` (behaviors.ts lines 678–748): same unguarded
`getEventAt` lookup, then the `!event.getActions` check, then insertion. -/
def actionAddTool (list : GDEventList) (eventIndex : Int) (act : ActSpec)
    (position : Option Nat) : Except EventToolError (GDEventList × Nat) :=
  match list.getEventAt eventIndex with
  | none => .error .nativeLookupFault
  | some e =>
      match e.actions with
      | none => .error .unsupportedInstr
      | some acts =>
          let pos := position.getD acts.length
          let e' := e.withActions
            (acts.insertIdx (min pos acts.length) (instructionOfAct act))
          .ok (list.setAtNat eventIndex.toNat e', pos)

/-- `gdevelop_event_delete` (behaviors.ts lines 507–550): explicit bounds
check `eventIndex < 0 || eventIndex >= getEventsCount()` raising the
index-out-of-bounds error, then `removeEventAt`. -/
def eventDeleteTool (list : GDEventList) (eventIndex : Int) :
    Except EventToolError GDEventList :=
  if eventIndex < 0 ∨ (list.length : Int) ≤ eventIndex then .error .indexOutOfBounds
  else .ok (list.removeAtNat eventIndex.toNat)

/-! ## Concrete fixtures used by counterexamples and witnesses -/

/-- A registry with a dirty first session whose save fails, and a clean
second session. -/
def regFailingSave : ManagerState :=
  { sessions :=
      [("a", { state := { projectPath := "a.json", project := {}, dirty := true },
               saveOk := false }),
       ("b", { state := { projectPath := "b.json", project := {} },
               saveOk := true })] }

/-- A registry whose dirty sessions all have succeeding saves. -/
def regHealthy : ManagerState :=
  { sessions :=
      [("a", { state := { projectPath := "a.json", project := {}, dirty := true },
               saveOk := true }),
       ("b", { state := { projectPath := "b.json", project := {} },
               saveOk := true })] }

/-- A dirty single-session state over an empty project. -/
def sessDirty : SessionState :=
  { projectPath := "proj.json", project := {}, dirty := true }

/-- A session whose project has exactly one scene, named `A`, which is also
the first scene. -/
def sessOneScene : SessionState :=
  { projectPath := "p.json",
    project := { firstLayout := "A", layouts := [{ name := "A" }] } }

/-- A session with a global object `O` and one scene holding one instance of
`O` and one of `P`. -/
def sessTwoInstances : SessionState :=
  { projectPath := "p.json",
    project :=
      { layouts := [{ name := "L",
                      instances := [{ objectName := "O" }, { objectName := "P" }] }],
        globalObjects := [{ name := "O", kind := "Sprite" }] } }

/-- The scene of `sessBatchFixture`. -/
def layoutHero : GDLayout :=
  { name := "L", objects := [{ name := "Hero", kind := "Sprite" }] }

/-- A session with one scene containing the single object `Hero`. -/
def sessBatchFixture : SessionState :=
  { projectPath := "p.json", project := { layouts := [layoutHero] } }

/-- A two-item batch: one item names the existing `Hero`, the other the
nonexistent `Ghost`. -/
def batchMixed : List BatchItem :=
  [{ objectName := "Hero", x := 1, y := 2 }, { objectName := "Ghost", x := 3, y := 4 }]

/-- A batch whose single item names a nonexistent object. -/
def batchGhost : List BatchItem :=
  [{ objectName := "Ghost", x := 3, y := 4 }]

/-! # Theorems -/

/-! ## C1 — `closeAllSessions` and save failures -/

/-- Helper: when every dirty session's save succeeds (or no save is asked
for), the close-all loop over the exact key list empties the registry. -/
theorem closeAllGo_complete (save : Bool) :
    ∀ (ids : List String) (m : ManagerState),
      m.sessions.map Prod.fst = ids →
      (∀ e ∈ m.sessions, save = true → e.2.state.dirty = true → e.2.saveOk = true) →
      (closeAllGo m save ids).1.sessions = [] ∧ (closeAllGo m save ids).2 = true := by
  intro ids
  induction ids with
  | nil =>
      intro m hkeys _
      have hsess : m.sessions = [] := by
        cases h : m.sessions with
        | nil => rfl
        | cons a tl => rw [h] at hkeys; simp at hkeys
      simp [closeAllGo, hsess]
  | cons id rest ih =>
      intro m hkeys hsave
      cases h : m.sessions with
      | nil => rw [h] at hkeys; simp at hkeys
      | cons a tl =>
        rw [h] at hkeys
        simp only [List.map_cons, List.cons.injEq] at hkeys
        obtain ⟨hid, htl⟩ := hkeys
        have hfind : m.sessions.find? (fun e => e.1 = id) = some a := by
          rw [h]
          exact List.find?_cons_of_pos _ (by simp [hid])
        have herase : m.sessions.eraseP (fun e => e.1 = id) = tl := by
          rw [h]
          exact List.eraseP_cons_of_pos (by simp [hid])
        have hsave' : ∀ e ∈ tl, save = true → e.2.state.dirty = true →
            e.2.saveOk = true := by
          intro e he
          exact hsave e (by rw [h]; exact List.mem_cons_of_mem _ he)
        by_cases hd : save ∧ a.2.state.dirty
        · have hok : a.2.saveOk = true :=
            hsave a (by rw [h]; exact List.mem_cons_self a tl)
              (by simpa using hd.1) (by simpa using hd.2)
          simp only [closeAllGo, closeSession, hfind, if_pos hd, hok, sessionSave,
            if_pos rfl, herase]
          exact ih _ htl hsave'
        · simp only [closeAllGo, closeSession, hfind, if_neg hd, herase]
          exact ih _ htl hsave'

/-- Helper: if the close-all loop aborts, the registry it leaves behind is
nonempty (the session whose save threw is still registered). -/
theorem closeAllGo_abort (save : Bool) :
    ∀ (ids : List String) (m : ManagerState),
      (closeAllGo m save ids).2 = false → (closeAllGo m save ids).1.sessions ≠ [] := by
  intro ids
  induction ids with
  | nil => intro m h; simp [closeAllGo] at h
  | cons id rest ih =>
      intro m h
      cases hcs : closeSession m id save with
      | error e =>
          simp only [closeAllGo, hcs]
          intro hnil
          rw [closeSession, hnil] at hcs
          simp [List.find?] at hcs
      | ok p =>
          simp only [closeAllGo, hcs] at h ⊢
          exact ih p.1 h

/-- Claim C1 counterexample: on a registry holding a dirty session whose save
fails followed by a clean session, `closeAllSessions(save := true)` aborts at
the first session's save and leaves both sessions registered — the claim's
"after the call no session remains registered" is false. -/
theorem closeAllSessions_abort_counterexample :
    (closeAllSessions regFailingSave true).2 = false ∧
    (closeAllSessions regFailingSave true).1.sessions.map Prod.fst = ["a", "b"] := by
  decide

/-- Claim C1 (amended): `closeAllSessions(save)` walks the sessions in
registration order with no exception handling around the per-session save, so
when `save` is requested and a dirty session's save fails, the loop aborts and
that session together with every session after it stays registered; when no
save is requested, or every dirty session's save succeeds, every session is
closed and none remains registered. -/
theorem closeAllSessions_amended (m : ManagerState) (save : Bool) :
    ((∀ e ∈ m.sessions, save = true → e.2.state.dirty = true → e.2.saveOk = true) →
        (closeAllSessions m save).1.sessions = [] ∧ (closeAllSessions m save).2 = true) ∧
    ((closeAllSessions m save).2 = false → (closeAllSessions m save).1.sessions ≠ []) := by
  constructor
  · intro hsave
    exact closeAllGo_complete save (m.sessions.map Prod.fst) m rfl hsave
  · exact closeAllGo_abort save (m.sessions.map Prod.fst) m

/-- Witness for C1's amended theorem at a concrete healthy registry. -/
theorem closeAllSessions_amended_witness :
    (closeAllSessions regHealthy true).1.sessions = [] ∧
    (closeAllSessions regHealthy true).2 = true :=
  (closeAllSessions_amended regHealthy true).1 (by decide)

/-! ## C3 — `ProjectSession.save` -/

/-- Claim C3 counterexample: the supplied new path `""` is falsy in
JavaScript, so `savePath || this.projectPath` and `if (savePath)` treat it as
absent: the write goes to the old session path and the session path is not
replaced by the supplied path — refuting "the new path becomes the session's
path" for every supplied path. -/
theorem sessionSave_empty_newpath_counterexample :
    sessionSave true (some "") sessDirty [] =
      .ok ("proj.json", { sessDirty with dirty := false, projectPath := "proj.json" },
        fsWrite [] "proj.json" (serializeProject sessDirty.project)) ∧
    "proj.json" ≠ "" := by
  exact ⟨rfl, by decide⟩

/-- Claim C3 (amended): `save(savePath?)` writes the serialized document to
the session path, or to the supplied new path when that path is nonempty, in
which case the new path becomes the session path; a supplied empty-string
path is treated as absent.  The dirty flag is cleared exactly when the write
succeeds; when the write throws, no post-write statement runs, so the dirty
flag and the session path keep their previous values. -/
theorem sessionSave_amended (writeOk : Bool) (savePath : Option String)
    (s : SessionState) (fs : FileSys) :
    (writeOk = false → sessionSave writeOk savePath s fs = .error ()) ∧
    (writeOk = true → ∀ p, savePath = some p → p ≠ "" →
        sessionSave writeOk savePath s fs =
          .ok (p, { s with dirty := false, projectPath := p },
            fsWrite fs p (serializeProject s.project))) ∧
    (writeOk = true → (savePath = none ∨ savePath = some "") →
        sessionSave writeOk savePath s fs =
          .ok (s.projectPath, { s with dirty := false },
            fsWrite fs s.projectPath (serializeProject s.project))) := by
  refine ⟨?_, ?_, ?_⟩
  · intro hw; subst hw; simp [sessionSave]
  · intro hw p hp hne; subst hw; subst hp; simp [sessionSave, hne]
  · intro hw hcase; subst hw
    rcases hcase with h | h <;> subst h <;> simp [sessionSave]

/-- Witness for C3's amended theorem: a successful save to a nonempty new
path, and a failing write leaving the session untouched. -/
theorem sessionSave_amended_witness :
    (sessionSave true (some "new.json") sessDirty [] =
      .ok ("new.json", { sessDirty with dirty := false, projectPath := "new.json" },
        fsWrite [] "new.json" (serializeProject sessDirty.project))) ∧
    sessionSave false none sessDirty [] = .error () :=
  ⟨(sessionSave_amended true (some "new.json") sessDirty []).2.1 rfl "new.json" rfl
      (by decide),
    (sessionSave_amended false none sessDirty []).1 rfl⟩

/-! ## C2 — the first-scene invariant under the scene mutation surface -/

/-- Helper: `firstLayoutValid` in existential form. -/
theorem firstLayoutValid_iff (p : GDProject) :
    firstLayoutValid p = true ↔
      (p.firstLayout = "" ∨ ∃ x ∈ p.layouts, x.name = p.firstLayout) := by
  unfold firstLayoutValid GDProject.hasLayoutNamed
  by_cases h : p.firstLayout = "" <;> simp [h, List.any_eq_true]

/-- Helper: after renaming the first scene named `curr`, a scene named
`newName` exists, provided one named `curr` existed before. -/
theorem exists_renameFirstLayout_self (ls : List GDLayout) (curr newName : String)
    (h : ∃ x ∈ ls, x.name = curr) :
    ∃ x ∈ renameFirstLayout ls curr newName, x.name = newName := by
  induction ls with
  | nil => obtain ⟨x, hx, _⟩ := h; cases hx
  | cons a tl ih =>
      obtain ⟨x, hx, hxc⟩ := h
      by_cases hc : a.name = curr
      · exact ⟨{ a with name := newName }, by simp [renameFirstLayout, hc], rfl⟩
      · rcases List.mem_cons.mp hx with rfl | hx
        · exact absurd hxc hc
        · obtain ⟨y, hy, hyn⟩ := ih ⟨x, hx, hxc⟩
          exact ⟨y, by simp [renameFirstLayout, hc, hy], hyn⟩

/-- Helper: renaming the first scene named `curr` keeps every scene name
other than `curr` present. -/
theorem exists_renameFirstLayout_other (ls : List GDLayout) (curr newName f : String)
    (hf : f ≠ curr) (h : ∃ x ∈ ls, x.name = f) :
    ∃ x ∈ renameFirstLayout ls curr newName, x.name = f := by
  induction ls with
  | nil => obtain ⟨x, hx, _⟩ := h; cases hx
  | cons a tl ih =>
      obtain ⟨x, hx, hxf⟩ := h
      by_cases hc : a.name = curr
      · rcases List.mem_cons.mp hx with rfl | hx
        · exact absurd (hxf.symm.trans hc) hf
        · exact ⟨x, by simp [renameFirstLayout, hc, hx], hxf⟩
      · rcases List.mem_cons.mp hx with rfl | hx
        · exact ⟨x, by simp [renameFirstLayout, hc], hxf⟩
        · obtain ⟨y, hy, hyn⟩ := ih ⟨x, hx, hxf⟩
          exact ⟨y, by simp [renameFirstLayout, hc, hy], hyn⟩

/-- Helper: erasing the first scene named `n` keeps every scene name other
than `n` present. -/
theorem exists_eraseP_of_other (ls : List GDLayout) (n f : String) (hf : f ≠ n)
    (h : ∃ x ∈ ls, x.name = f) :
    ∃ x ∈ ls.eraseP (fun l => l.name = n), x.name = f := by
  obtain ⟨w, hw, hwf⟩ := h
  refine ⟨w, (List.mem_eraseP_of_neg ?_).mpr hw, hwf⟩
  simp only [decide_eq_true_eq]
  intro hc
  exact hf (hwf.symm.trans hc)

/-- Helper: inserting a scene keeps every existing scene name present. -/
theorem exists_insertIdx_layouts (ls : List GDLayout) (x : GDLayout) (pos : Nat)
    (f : String) (h : ∃ w ∈ ls, w.name = f) :
    ∃ w ∈ ls.insertIdx (min pos ls.length) x, w.name = f := by
  obtain ⟨w, hw, hwf⟩ := h
  exact ⟨w, (List.mem_insertIdx (Nat.min_le_right _ _)).mpr (Or.inr hw), hwf⟩

/-- Claim C2 counterexample: on a document whose only scene `A` is also the
first scene, `gdevelop_scene_delete A` succeeds and leaves the first-scene
identifier set to `A` while no scene `A` exists any more — the invariant does
not hold at every observable point under the exposed mutations. -/
theorem firstLayout_dangling_counterexample :
    firstLayoutValid sessOneScene.project = true ∧
    (applySceneOp (.delete "A") sessOneScene 3).2 = none ∧
    firstLayoutValid (applySceneOp (.delete "A") sessOneScene 3).1.project = false := by
  decide

/-- Claim C2 (amended): every exposed scene mutation — scene create, scene
rename, settings update — preserves the first-scene invariant at every
observable point (also on failed calls), and so does scene delete except when
the deleted scene is the one the first-scene identifier names, in which case
the identifier is left dangling (the known eager-validation gap of §7/§9). -/
theorem sceneOps_preserve_firstLayout (s : SessionState) (op : SceneOp) (now : Nat)
    (hinv : firstLayoutValid s.project = true)
    (hdel : ∀ n, op = .delete n → n ≠ s.project.firstLayout) :
    firstLayoutValid (applySceneOp op s now).1.project = true := by
  cases op with
  | create name pos =>
      by_cases hc : s.project.hasLayoutNamed name = true
      · simpa [applySceneOp, sessionCreateLayout, hc] using hinv
      · have hres : (applySceneOp (.create name pos) s now).1.project =
            s.project.insertNewLayout name (pos.getD s.project.layouts.length) := by
          simp [applySceneOp, sessionCreateLayout, hc, SessionState.markDirty]
        rw [firstLayoutValid_iff] at hinv ⊢
        rw [hres]
        rcases hinv with h0 | hany
        · exact Or.inl h0
        · exact Or.inr (exists_insertIdx_layouts _ _ _ _ hany)
  | delete name =>
      have hne : name ≠ s.project.firstLayout := hdel name rfl
      by_cases hc : s.project.hasLayoutNamed name = true
      · have hres : (applySceneOp (.delete name) s now).1.project =
            { s.project with
              layouts := s.project.layouts.eraseP (fun l => l.name = name) } := by
          simp [applySceneOp, sessionDeleteLayout, hc, SessionState.markDirty,
            GDProject.removeLayout]
        rw [firstLayoutValid_iff] at hinv ⊢
        rw [hres]
        rcases hinv with h0 | hany
        · exact Or.inl h0
        · exact Or.inr (exists_eraseP_of_other _ _ _ (Ne.symm hne) hany)
      · simpa [applySceneOp, sessionDeleteLayout, hc] using hinv
  | rename curr newName =>
      by_cases hcur : s.project.hasLayoutNamed curr = true
      · by_cases hnew : s.project.hasLayoutNamed newName = true
        · simpa [applySceneOp, sessionRenameLayout, hcur, hnew] using hinv
        · have hcur' : ∃ x ∈ s.project.layouts, x.name = curr := by
            simpa [GDProject.hasLayoutNamed, List.any_eq_true] using hcur
          by_cases hfc : s.project.firstLayout = curr
          · have hres : (applySceneOp (.rename curr newName) s now).1.project =
                { s.project with
                  layouts := renameFirstLayout s.project.layouts curr newName,
                  firstLayout := newName } := by
              simp [applySceneOp, sessionRenameLayout, hcur, hnew, hfc,
                SessionState.markDirty]
            rw [firstLayoutValid_iff, hres]
            exact Or.inr (exists_renameFirstLayout_self _ _ _ hcur')
          · have hres : (applySceneOp (.rename curr newName) s now).1.project =
                { s.project with
                  layouts := renameFirstLayout s.project.layouts curr newName } := by
              simp [applySceneOp, sessionRenameLayout, hcur, hnew, hfc,
                SessionState.markDirty]
            rw [firstLayoutValid_iff] at hinv ⊢
            rw [hres]
            rcases hinv with h0 | hany
            · exact Or.inl h0
            · exact Or.inr (exists_renameFirstLayout_other _ _ _ _ hfc hany)
      · simpa [applySceneOp, sessionRenameLayout, hcur] using hinv
  | updateSettings st =>
      cases hst : st.firstLayout with
      | none =>
          have hres : (applySceneOp (.updateSettings st) s now).1.project =
              (applyMetaSettings s.project st).1 := by
            by_cases hcnt : 0 < (applyMetaSettings s.project st).2 <;>
              simp [applySceneOp, applySettings, hst, hcnt, SessionState.markDirty]
          rw [firstLayoutValid_iff] at hinv ⊢
          rw [hres]
          exact hinv
      | some v =>
          by_cases hv : (applyMetaSettings s.project st).1.hasLayoutNamed v = true
          · have hres : (applySceneOp (.updateSettings st) s now).1.project =
                { (applyMetaSettings s.project st).1 with firstLayout := v } := by
              simp [applySceneOp, applySettings, hst, hv, SessionState.markDirty]
            have hv' : ∃ x ∈ s.project.layouts, x.name = v := by
              simpa [GDProject.hasLayoutNamed, applyMetaSettings,
                List.any_eq_true] using hv
            rw [firstLayoutValid_iff, hres]
            exact Or.inr hv'
          · have hres : (applySceneOp (.updateSettings st) s now).1.project =
                (applyMetaSettings s.project st).1 := by
              simp [applySceneOp, applySettings, hst, hv]
            rw [firstLayoutValid_iff] at hinv ⊢
            rw [hres]
            exact hinv

/-- Witness for C2's amended theorem: renaming the first scene keeps the
first-scene identifier valid (it is rewritten to the new name). -/
theorem sceneOps_preserve_firstLayout_witness :
    firstLayoutValid (applySceneOp (.rename "A" "B") sessOneScene 4).1.project = true :=
  sceneOps_preserve_firstLayout sessOneScene (.rename "A" "B") 4 (by decide)
    (fun n h => by simp at h)

/-! ## C9 — renaming a scene to its own name -/

/-- Claim C9: `renameLayout(N, N)` checks `hasLayout(newName)` with no
self-rename exemption, so renaming a scene to its own name always fails with
the duplicate-name error; the error is raised before any mutation, so the
document, the dirty flag and the timestamps are unchanged (the embedding
returns no new state on error). -/
theorem renameLayout_self_duplicate (s : SessionState) (n : String) (now : Nat)
    (h : s.project.hasLayoutNamed n = true) :
    sessionRenameLayout s n n now = .error .duplicateName := by
  simp [sessionRenameLayout, h]

/-- Witness for C9 on a one-scene project. -/
theorem renameLayout_self_duplicate_witness :
    sessionRenameLayout sessOneScene "A" "A" 7 = .error .duplicateName :=
  renameLayout_self_duplicate sessOneScene "A" 7 (by decide)

/-! ## C4 — object rename cascades into every scene's instances -/

/-- Helper: mutating only a layout's object container, then renaming instance
references in every layout, gives the same instance lists as renaming the
references directly on the original layouts. -/
theorem updateFirstLayout_rename_objects_map (ls : List GDLayout) (n curr newName : String) :
    (updateFirstLayout ls n
        (fun l => { l with objects := renameFirstObject l.objects curr newName })).map
        (fun l => renameInstancesOfObject l.instances curr newName) =
      ls.map (fun l => renameInstancesOfObject l.instances curr newName) := by
  induction ls with
  | nil => rfl
  | cons a tl ih => by_cases hc : a.name = n <;> simp [updateFirstLayout, hc, ih]

/-- Claim C4: when the addressed container holds `curr` and not `newName`
(and the addressed scene exists), `gdevelop_object_rename` succeeds and, in
every scene, rewrites the object-name reference of exactly those instances
whose object name was `curr` to `newName`, leaving every other instance
unchanged. -/
theorem objectRename_cascades (s : SessionState) (curr newName : String)
    (sceneName : Option String) (now : Nat)
    (hscene : ∀ sn, sceneName = some sn → s.project.hasLayoutNamed sn = true)
    (hcur : (objectContainerOf s sceneName).any (fun o => o.name = curr) = true)
    (hnew : (objectContainerOf s sceneName).any (fun o => o.name = newName) = false) :
    (objectRenameTool s curr newName sceneName now).2 = none ∧
    (objectRenameTool s curr newName sceneName now).1.project.layouts.map
        (fun l => l.instances) =
      s.project.layouts.map (fun l => l.instances.map (fun i =>
        if i.objectName = curr then { i with objectName := newName } else i)) := by
  cases sceneName with
  | none =>
      have hcur' : s.project.globalObjects.any (fun o => o.name = curr) = true := hcur
      have hnew' : s.project.globalObjects.any (fun o => o.name = newName) = false := hnew
      constructor
      · simp [objectRenameTool, hcur', hnew']
      · simp [objectRenameTool, hcur', hnew', SessionState.markDirty, List.map_map,
          Function.comp_def, renameInstancesOfObject]
  | some sn =>
      have hsn := hscene sn rfl
      constructor
      · simp [objectRenameTool, hsn, hcur, hnew]
      · simp [objectRenameTool, hsn, hcur, hnew, SessionState.markDirty, List.map_map,
          Function.comp_def]
        rw [updateFirstLayout_rename_objects_map]
        simp [renameInstancesOfObject]

/-- Witness for C4: renaming global object `O` to `O2` rewrites the one
instance of `O` and leaves the instance of `P` alone. -/
theorem objectRename_cascades_witness :
    (objectRenameTool sessTwoInstances "O" "O2" none 9).2 = none ∧
    (objectRenameTool sessTwoInstances "O" "O2" none 9).1.project.layouts.map
        (fun l => l.instances) =
      sessTwoInstances.project.layouts.map (fun l => l.instances.map (fun i =>
        if i.objectName = "O" then { i with objectName := "O2" } else i)) :=
  objectRename_cascades sessTwoInstances "O" "O2" none 9
    (fun sn h => by cases h) (by decide) (by decide)

/-! ## C5 / C10 — batch instance creation -/

/-- Helper: the result list of the batch loop, item by item. -/
theorem runBatch_outcomes (p : GDProject) (l : GDLayout) (items : List BatchItem) :
    (runBatch p l items).2 = items.map (fun d =>
      if objectResolvable p l d.objectName then BatchOutcome.created d.objectName d.x d.y
      else BatchOutcome.failed d.objectName "Object not found") := by
  induction items with
  | nil => rfl
  | cons d rest ih =>
      by_cases hd : objectResolvable p l d.objectName = true <;> simp [runBatch, hd, ih]

/-- Helper: the instances the batch loop inserts are exactly those of the
resolvable items, in order. -/
theorem runBatch_instances (p : GDProject) (l : GDLayout) (items : List BatchItem) :
    (runBatch p l items).1 =
      (items.filter (fun d => objectResolvable p l d.objectName)).map instanceOfItem := by
  induction items with
  | nil => rfl
  | cons d rest ih =>
      by_cases hd : objectResolvable p l d.objectName = true <;>
        simp [runBatch, hd, ih, List.filter_cons]

/-- Helper: looking up a layout by name after a name-preserving in-place
mutation of that layout finds the mutated layout. -/
theorem find?_updateFirstLayout (ls : List GDLayout) (n : String)
    (f : GDLayout → GDLayout) (l : GDLayout)
    (hl : ls.find? (fun l0 => l0.name = n) = some l)
    (hf : ∀ l0, (f l0).name = l0.name) :
    (updateFirstLayout ls n f).find? (fun l0 => l0.name = n) = some (f l) := by
  induction ls with
  | nil => simp at hl
  | cons a tl ih =>
      by_cases hc : a.name = n
      · have ha : a = l :=
          Option.some.inj (by rwa [List.find?_cons_of_pos _ (by simp [hc])] at hl)
        subst ha
        simp only [updateFirstLayout, if_pos hc]
        exact List.find?_cons_of_pos _ (by simp [hf, hc])
      · rw [List.find?_cons_of_neg _ (by simp [hc])] at hl
        simp only [updateFirstLayout, if_neg hc]
        rw [List.find?_cons_of_neg _ (by simp [hc])]
        exact ih hl

/-- Helper: an in-place layout mutation that changes nothing leaves the
layout list unchanged. -/
theorem updateFirstLayout_id (ls : List GDLayout) (n : String)
    (f : GDLayout → GDLayout) (hf : ∀ l, f l = l) :
    updateFirstLayout ls n f = ls := by
  induction ls with
  | nil => rfl
  | cons a tl ih => by_cases hc : a.name = n <;> simp [updateFirstLayout, hc, hf, ih]

/-- Claim C5: each batch item succeeds or fails independently — the result is
a per-item list whose k-th entry is a success exactly when the k-th item's
object resolves (scene-locally or globally), failures being tagged with the
object-not-found error — and the scene's instance container gains exactly the
instances of the resolvable items (one per resolvable item, appended in
order).  In particular a batch of one resolvable and one unresolvable item
yields one success entry, one failure entry, and one new instance. -/
theorem instanceBatch_per_item (s : SessionState) (sceneName : String)
    (items : List BatchItem) (now : Nat) (l : GDLayout)
    (hl : s.project.layouts.find? (fun l0 => l0.name = sceneName) = some l) :
    (instanceBatchTool s sceneName items now).2.1 = none ∧
    (instanceBatchTool s sceneName items now).2.2 = items.map (fun d =>
      if objectResolvable s.project l d.objectName then
        BatchOutcome.created d.objectName d.x d.y
      else BatchOutcome.failed d.objectName "Object not found") ∧
    ((instanceBatchTool s sceneName items now).1.project.layouts.find?
        (fun l0 => l0.name = sceneName)).map GDLayout.instances =
      some (l.instances ++
        (items.filter (fun d => objectResolvable s.project l d.objectName)).map
          instanceOfItem) := by
  refine ⟨?_, ?_, ?_⟩
  · simp [instanceBatchTool, hl]
  · simp [instanceBatchTool, hl, runBatch_outcomes]
  · simp only [instanceBatchTool, hl, SessionState.markDirty]
    rw [find?_updateFirstLayout s.project.layouts sceneName
      (fun l0 => { l0 with instances := l0.instances ++ (runBatch s.project l items).1 })
      l hl (fun l0 => rfl)]
    simp [runBatch_instances]

/-- Witness for C5: the spec's scenario — a batch naming the existing `Hero`
and the nonexistent `Ghost` produces one success, one tagged failure, and
exactly one new instance in the container. -/
theorem instanceBatch_per_item_witness :
    (instanceBatchTool sessBatchFixture "L" batchMixed 5).2.1 = none ∧
    (instanceBatchTool sessBatchFixture "L" batchMixed 5).2.2 = batchMixed.map (fun d =>
      if objectResolvable sessBatchFixture.project layoutHero d.objectName then
        BatchOutcome.created d.objectName d.x d.y
      else BatchOutcome.failed d.objectName "Object not found") ∧
    ((instanceBatchTool sessBatchFixture "L" batchMixed 5).1.project.layouts.find?
        (fun l0 => l0.name = "L")).map GDLayout.instances =
      some (layoutHero.instances ++
        (batchMixed.filter
          (fun d => objectResolvable sessBatchFixture.project layoutHero d.objectName)).map
          instanceOfItem) :=
  instanceBatch_per_item sessBatchFixture "L" batchMixed 5 layoutHero (by decide)

/-- Claim C10: a batch in which no item resolves reports a failure entry per
item, adds no instance (the scene list is unchanged), and yet still marks the
session dirty and stamps the last-modified time, because `markDirty` runs
unconditionally after the loop. -/
theorem instanceBatch_all_fail_still_dirty (s : SessionState) (sceneName : String)
    (items : List BatchItem) (now : Nat) (l : GDLayout)
    (hl : s.project.layouts.find? (fun l0 => l0.name = sceneName) = some l)
    (hfail : ∀ d ∈ items, objectResolvable s.project l d.objectName = false) :
    (instanceBatchTool s sceneName items now).2.2 =
      items.map (fun d => BatchOutcome.failed d.objectName "Object not found") ∧
    (instanceBatchTool s sceneName items now).1.project.layouts = s.project.layouts ∧
    (instanceBatchTool s sceneName items now).1.dirty = true ∧
    (instanceBatchTool s sceneName items now).1.lastModifiedAt = now := by
  have h1 : (runBatch s.project l items).1 = [] := by
    rw [runBatch_instances]
    have hnil : items.filter (fun d => objectResolvable s.project l d.objectName) = [] :=
      List.filter_eq_nil_iff.mpr (fun d hd => by simp [hfail d hd])
    rw [hnil]; rfl
  have h2 : updateFirstLayout s.project.layouts sceneName
      (fun l0 => { l0 with instances := l0.instances ++ (runBatch s.project l items).1 }) =
      s.project.layouts := by
    apply updateFirstLayout_id
    intro l0
    rw [h1]
    simp
  refine ⟨?_, ?_, ?_, ?_⟩
  · simp only [instanceBatchTool, hl]
    rw [runBatch_outcomes]
    exact List.map_congr_left (fun d hd => by simp [hfail d hd])
  · simp [instanceBatchTool, hl, SessionState.markDirty, h2]
  · simp [instanceBatchTool, hl, SessionState.markDirty]
  · simp [instanceBatchTool, hl, SessionState.markDirty]

/-- Witness for C10: a one-item batch naming the nonexistent `Ghost` leaves
the scene untouched but dirties the session and bumps the timestamp. -/
theorem instanceBatch_all_fail_still_dirty_witness :
    (instanceBatchTool sessBatchFixture "L" batchGhost 6).2.2 =
      batchGhost.map (fun d => BatchOutcome.failed d.objectName "Object not found") ∧
    (instanceBatchTool sessBatchFixture "L" batchGhost 6).1.project.layouts =
      sessBatchFixture.project.layouts ∧
    (instanceBatchTool sessBatchFixture "L" batchGhost 6).1.dirty = true ∧
    (instanceBatchTool sessBatchFixture "L" batchGhost 6).1.lastModifiedAt = 6 :=
  instanceBatch_all_fail_still_dirty sessBatchFixture "L" batchGhost 6 layoutHero
    (by decide) (by decide)

/-! ## C6 — backup failure does not block the save -/

/-- Claim C6: in `gdevelop_project_save` the backup step runs inside its own
try/catch whose handler only logs, so the tool call completes exactly when
the save's own write succeeds, and both the reported saved path and the
resulting session state are independent of whether the backup succeeded. -/
theorem projectSave_outcome_independent_of_backup (cb copyOk writeOk : Bool)
    (savePath : Option String) (s : SessionState) (ts : Nat) (fs : FileSys) :
    respOk (projectSaveTool cb copyOk writeOk savePath s ts fs).1 = writeOk ∧
    savedPathOf (projectSaveTool cb copyOk writeOk savePath s ts fs).1 =
      savedPathOf (projectSaveTool cb true writeOk savePath s ts fs).1 ∧
    (projectSaveTool cb copyOk writeOk savePath s ts fs).2.1 =
      (projectSaveTool cb true writeOk savePath s ts fs).2.1 := by
  cases cb <;> cases copyOk <;> cases writeOk <;>
    simp [projectSaveTool, createBackup, sessionSave, respOk, savedPathOf]

/-! ## C7 — depth-limited event listing -/

mutual

/-- Helper (mutual with `collectEventsList_perm`): the source's
children-before-parent accumulator order for one node is a permutation of the
spec-side parent-first listing. -/
theorem collectEventsOne_perm : ∀ (e : GDEvent) (includeDisabled : Bool)
    (depth cur : Nat) (pre : String) (i : Nat),
    (collectEventsOne e includeDisabled depth cur pre i).Perm
      (listedUpToOne e includeDisabled depth cur pre i)
  | .mk k d fo cs acts canSub subs, includeDisabled, depth, cur, pre, i => by
      simp only [collectEventsOne, listedUpToOne]
      by_cases hskip : ¬ includeDisabled = true ∧ d = true
      · rw [if_pos hskip, if_pos hskip]
      · rw [if_neg hskip, if_neg hskip]
        by_cases hsub : canSub = true ∧ 0 < subs.length ∧ cur < depth
        · rw [if_pos hsub, if_pos hsub]
          exact List.perm_append_comm.trans
            ((collectEventsList_perm subs includeDisabled depth (cur + 1)
              (pre ++ toString i ++ ".") 0).cons _)
        · rw [if_neg hsub, if_neg hsub]
          exact List.Perm.refl _

/-- Helper (mutual with `collectEventsOne_perm`): same statement for a whole
list. -/
theorem collectEventsList_perm : ∀ (l : GDEventList) (includeDisabled : Bool)
    (depth cur : Nat) (pre : String) (i : Nat),
    (collectEventsList l includeDisabled depth cur pre i).Perm
      (listedUpToList l includeDisabled depth cur pre i)
  | .nil, _, _, _, _, _ => List.Perm.refl _
  | .cons e rest, includeDisabled, depth, cur, pre, i => by
      simp only [collectEventsList, listedUpToList]
      exact (collectEventsOne_perm e includeDisabled depth cur pre i).append
        (collectEventsList_perm rest includeDisabled depth cur pre (i + 1))

end

/-- Claim C7: listing events returns, for each node whose nesting depth is
within the caller-supplied limit, exactly that node's own summary — a node at
the limit still reports its counts and flags (including the size of its
non-empty sub-tree) but its nested tree is not descended into — and, in
particular, inserting a Standard event with 2 conditions and 1 action then
listing at depth 0 yields the single summary with conditionCount 2,
actionCount 1, subEventCount 0. -/
theorem eventList_depth_limited :
    (∀ (l : GDEventList) (depth : Nat),
        (collectEventsList l true depth 0 "" 0).Perm
          (listedUpToList l true depth 0 "" 0)) ∧
    (∀ (c1 c2 : CondSpec) (a1 : ActSpec),
        collectEventsList (eventCreateStandard .nil none [c1, c2] [a1]).1 true 0 0 "" 0 =
          [{ index := "0", kind := standardEventType, disabled := false, folded := false,
             summary := "2 condition(s), 1 action(s)",
             conditionCount := some 2, actionCount := some 1, subEventCount := 0 }]) := by
  constructor
  · intro l depth
    exact collectEventsList_perm l true depth 0 "" 0
  · intro c1 c2 a1
    simp only [eventCreateStandard, GDEventList.length, Option.getD,
      GDEvent.withConditions, GDEvent.withActions, GDEventList.insertAt,
      collectEventsList, collectEventsOne, summarizeEvent, getEventSummary,
      GDEvent.kind, GDEvent.disabled, GDEvent.folded, GDEvent.conditions,
      GDEvent.actions, GDEvent.canHaveSubEvents, GDEvent.hasSubEvents,
      GDEvent.subEvents, List.map_cons, List.map_nil, List.length_cons,
      List.length_nil, Option.map_some', List.length]
    simp
    decide

/-! ## C8 — unguarded event lookup in condition/action add -/

/-- Helper: resolving an index at or past the list's size finds no event. -/
theorem getAtNat_none : ∀ (l : GDEventList) (n : Nat), l.length ≤ n → l.getAtNat n = none
  | .nil, _, _ => by simp [GDEventList.getAtNat]
  | .cons e r, 0, hn => by simp [GDEventList.length] at hn
  | .cons e r, n + 1, hn => by
      simp only [GDEventList.getAtNat]
      exact getAtNat_none r n (by simpa [GDEventList.length] using hn)

/-- Helper: `getEventAt` finds no event at any out-of-range index. -/
theorem getEventAt_none (l : GDEventList) (i : Int)
    (h : i < 0 ∨ (l.length : Int) ≤ i) : l.getEventAt i = none := by
  rcases h with h | h
  · simp [GDEventList.getEventAt, h]
  · have h0 : ¬ i < 0 := by omega
    simp only [GDEventList.getEventAt, h0, if_neg, if_false, ite_false]
    exact getAtNat_none l i.toNat (by omega)

/-- Claim C8: `gdevelop_condition_add` and `gdevelop_action_add` pass the
caller's `eventIndex` straight to `getEventAt` with no bounds check, so for
every out-of-range index they fail at that unguarded lookup — not with the
index-out-of-bounds error — while `gdevelop_event_delete` raises exactly that
error for the same index. -/
theorem unguarded_instruction_add (list : GDEventList) (idx : Int) (cond : CondSpec)
    (act : ActSpec) (pos : Option Nat)
    (hout : idx < 0 ∨ (list.length : Int) ≤ idx) :
    conditionAddTool list idx cond pos = .error .nativeLookupFault ∧
    actionAddTool list idx act pos = .error .nativeLookupFault ∧
    eventDeleteTool list idx = .error .indexOutOfBounds ∧
    EventToolError.nativeLookupFault ≠ EventToolError.indexOutOfBounds := by
  refine ⟨?_, ?_, ?_, by decide⟩
  · simp [conditionAddTool, getEventAt_none list idx hout]
  · simp [actionAddTool, getEventAt_none list idx hout]
  · simp [eventDeleteTool, hout]

/-- Witness for C8: index 0 on an empty event list. -/
theorem unguarded_instruction_add_witness :
    conditionAddTool .nil 0 { kind := "c", parameters := [] } none =
      .error .nativeLookupFault ∧
    actionAddTool .nil 0 { kind := "a", parameters := [] } none =
      .error .nativeLookupFault ∧
    eventDeleteTool .nil 0 = .error .indexOutOfBounds ∧
    EventToolError.nativeLookupFault ≠ EventToolError.indexOutOfBounds :=
  unguarded_instruction_add .nil 0 { kind := "c", parameters := [] }
    { kind := "a", parameters := [] } none (by right; decide)
